import Mathlib

set_option maxRecDepth 100000

/-!
Verification of the device-configuration script engine of the Black Magic
Probe book repository (`source/bmp-script.c`).

Strings are modelled as `List Char` (no NUL bytes inside, the terminating
NUL of C corresponds to the end of the list).  Machine integers are `Nat`
with explicit `% 2^32` where the C code stores into `uint32_t`.  The C
`assert` macro marks fatal conditions; a function that can hit one is
modelled with an `Option` result, `none` standing for the fatal path.
-/

/-- Whitespace test `*str <= ' '` on an ASCII byte, as used by
`skipleading`/`skiptrailing` in the source. -/
def isWsA (c : Char) : Bool := decide (c.toNat ≤ 32)

/-- Function `skipleading` from bmp-script.c: skip characters `<= ' '`. -/
def skipleading : List Char → List Char
  | [] => []
  | c :: rest => if isWsA c then skipleading rest else c :: rest

/-- Function `skiptrailing` from bmp-script.c: drop trailing characters `<= ' '`. -/
def skiptrailing (l : List Char) : List Char :=
  (l.reverse.dropWhile isWsA).reverse

/-- Equality under `stricmp`/`strcasecmp` (ASCII case-insensitive). -/
def stricmpEq : List Char → List Char → Bool
  | [], [] => true
  | a :: as, b :: bs => (a.toUpper == b.toUpper) && stricmpEq as bs
  | _, _ => false

/-- Function `architecture_match` from bmp-script.c: compares two MCU "family"
strings, a lowercase `x` in the first (architecture) string is a
single-character wildcard, otherwise the comparison is case-insensitive.
Both strings must be consumed completely. -/
def architecture_match : List Char → List Char → Bool
  | [], [] => true
  | a :: as, m :: ms =>
      if a ≠ 'x' ∧ a.toUpper ≠ m.toUpper then false
      else architecture_match as ms
  | _, _ => false

/-- One step of the token scan of `mcu_match`: the segment up to the next
comma, with surrounding whitespace trimmed (`skipleading` was applied
before, `skiptrailing` is applied to the segment).  Fuel-driven so that the
definition is structurally recursive; `tokens` supplies enough fuel. -/
def tokensAux : Nat → List Char → List (List Char)
  | 0, _ => []
  | _, [] => []
  | Nat.succ n, l =>
      let seg := l.takeWhile (fun c => c != ',')
      skiptrailing seg ::
        (match l.dropWhile (fun c => c != ',') with
         | [] => []
         | _ :: r => tokensAux n (skipleading r))

/-- The comma-separated tokens of an MCU list, as scanned by both passes of
`mcu_match`. -/
def tokens (list : List Char) : List (List Char) :=
  tokensAux list.length (skipleading list)

/-- Index of the last space of the string, if any (C `strrchr(s, ' ')`). -/
def lastSpaceIdxAux : List Char → Nat → Option Nat → Option Nat
  | [], _, acc => acc
  | c :: r, i, acc => lastSpaceIdxAux r (i + 1) (if c = ' ' then some i else acc)

/-- The architecture-suffix strip of `mcu_match`: if the characters after
the last space are `M<digit>...`, the suffix (and the whitespace before it)
is removed. -/
def stripArchSuffix (fam : List Char) : List Char :=
  match lastSpaceIdxAux fam 0 none with
  | none => fam
  | some i =>
      match fam.drop (i + 1) with
      | 'M' :: d :: _ => if d.isDigit then skiptrailing (fam.take i) else fam
      | _ => fam

/-- Position of the first `*` in a token, if the token contains one
(C `strchr(head, '*')` limited by `wildcard < tail`). -/
def starIdx (t : List Char) : Option Nat :=
  if t.any (fun c => c == '*') then some (t.takeWhile (fun c => c != '*')).length
  else none

/-- Function `mcu_match` from bmp-script.c.  Pass 1 looks for an exact
(case-insensitive, `x`-wildcard) token of the same length as the family
name with the architecture suffix stripped; pass 2 tries tokens with a
`*` wildcard as prefix patterns.  Note that pass 1 hands the *unstripped*
family to `architecture_match` (this is faithful to the source), whereas
pass 2 copies only the first `matchlen` characters of the family.
Tokens of 50 or more characters do not fit the stack buffer `matchname`
and are skipped, as in the source. -/
def mcu_match (fam list : List Char) : Bool :=
  let stripped := stripArchSuffix fam
  let namelen := stripped.length
  let toks := tokens list
  if toks.any (fun t =>
      (t.length == namelen) && decide (t.length < 50) && architecture_match t fam) then
    true
  else
    toks.any (fun t =>
      match starIdx t with
      | none => false
      | some w =>
          if w == 0 then true
          else decide (namelen > w) && decide (w < 50) &&
               architecture_match (t.take w) (fam.take w))

/-- Character match of the spec's matcher description (claim C2): a
lowercase `x` in the token matches any single character, otherwise the
comparison is case-insensitive. -/
def specCharOk (t f : Char) : Bool := (t == 'x') || (t.toUpper == f.toUpper)

/-- Pass-1 acceptance of a token per the spec's words (claim C2): no `*`,
length equal to the *stripped* family's length, characters matching under
the case-and-`x` rules. -/
def specExactTok (famS t : List Char) : Bool :=
  (!(t.any (fun c => c == '*'))) && (t.length == famS.length) &&
    (List.zip t famS).all (fun p => specCharOk p.1 p.2)

/-- Pass-2 acceptance of a token per the spec's words (claim C2): the `*`
is at the final position; `"*"` alone matches everything; otherwise the
stripped family must be strictly longer than the part before `*`, which
must match the family's head under the case-and-`x` rules. -/
def specStarTok (famS t : List Char) : Bool :=
  if t == [ '*' ] then true
  else
    match t.getLast? with
    | some c =>
        if (c == '*') && (!(t.dropLast.any (fun x => x == '*'))) then
          decide (famS.length > t.dropLast.length) &&
            (List.zip t.dropLast famS).all (fun p => specCharOk p.1 p.2)
        else false
    | none => false

/-- The matcher as the spec (and claim C2) words it: strip the
architecture suffix, then pass 1 (exact) over all tokens, then - only if
pass 1 accepted nothing - pass 2 (trailing-`*` patterns). -/
def specMatches (fam list : List Char) : Bool :=
  let famS := stripArchSuffix fam
  let toks := tokens list
  if toks.any (specExactTok famS) then true
  else toks.any (specStarTok famS)

/-- A register definition (`REG_DEF` in bmp-script.c). -/
structure REG_DEF where
  name : List Char
  address : Nat
  size : Nat
  mcu_list : List Char
deriving DecidableEq

/-- Helper to write the hard-coded register table with string literals. -/
def mkReg (n : String) (a s : Nat) (m : String) : REG_DEF :=
  ⟨n.toList, a, s, m.toList⟩

/-- The hard-coded register table `register_defaults` of bmp-script.c. -/
def register_defaults : List REG_DEF := [
  mkReg "SYSCON_SYSMEMREMAP" 0x40048000 4 "LPC8xx,LPC11xx*,LPC11Uxx,LPC12xx,LPC13xx",
  mkReg "SYSCON_SYSMEMREMAP" 0x40074000 4 "LPC15xx",
  mkReg "SCB_MEMMAP"         0x400FC040 4 "LPC17xx",
  mkReg "SCB_MEMMAP"         0xE01FC040 4 "LPC21xx,LPC22xx,LPC23xx,LPC24xx",
  mkReg "M4MEMMAP"           0x40043100 4 "LPC43xx*",
  mkReg "RCC_APB2ENR"        0x40021018 4 "STM32F1*",
  mkReg "AFIO_MAPR"          0x40010004 4 "STM32F1*",
  mkReg "RCC_AHB1ENR"        0x40023830 4 "STM32F4*,STM32F7*",
  mkReg "GPIOB_MODER"        0x40020400 4 "STM32F4*,STM32F7*",
  mkReg "GPIOB_AFRL"         0x40020420 4 "STM32F4*,STM32F7*",
  mkReg "GPIOB_OSPEEDR"      0x40020408 4 "STM32F4*,STM32F7*",
  mkReg "GPIOB_PUPDR"        0x4002040C 4 "STM32F4*,STM32F7*",
  mkReg "DBGMCU_CR"          0xE0042004 4 "STM32F03,STM32F05,STM32F07,STM32F09,STM32F1*,STM32F2*,STM32F3*,STM32F4*,STM32F7*",
  mkReg "TRACECLKDIV"        0x400480AC 4 "LPC13xx",
  mkReg "TRACECLKDIV"        0x400740D8 4 "LPC15xx",
  mkReg "IOCON_PIO0_9"       0x40044024 4 "LPC13xx",
  mkReg "SCB_DHCSR"          0xE000EDF0 4 "*",
  mkReg "SCB_DCRSR"          0xE000EDF4 4 "*",
  mkReg "SCB_DCRDR"          0xE000EDF8 4 "*",
  mkReg "SCB_DEMCR"          0xE000EDFC 4 "*",
  mkReg "TPIU_SSPSR"         0xE0040000 4 "*",
  mkReg "TPIU_CSPSR"         0xE0040004 4 "*",
  mkReg "TPIU_ACPR"          0xE0040010 4 "*",
  mkReg "TPIU_SPPR"          0xE00400F0 4 "*",
  mkReg "TPIU_FFCR"          0xE0040304 4 "*",
  mkReg "TPIU_DEVID"         0xE0040FC8 4 "*",
  mkReg "DWT_CTRL"           0xE0001000 4 "*",
  mkReg "DWT_CYCCNT"         0xE0001004 4 "*",
  mkReg "ITM_TER"            0xE0000E00 4 "*",
  mkReg "ITM_TPR"            0xE0000E40 4 "*",
  mkReg "ITM_TCR"            0xE0000E80 4 "*",
  mkReg "ITM_LAR"            0xE0000FB0 4 "*",
  mkReg "ITM_IWR"            0xE0000EF8 4 "*",
  mkReg "ITM_IRR"            0xE0000EFC 4 "*",
  mkReg "ITM_IMCR"           0xE0000F00 4 "*",
  mkReg "ITM_LSR"            0xE0000FB4 4 "*"]

/-- A hard-coded script source (`SCRIPT_DEF` in bmp-script.c). -/
structure SCRIPT_DEF where
  name : List Char
  mcu_list : List Char
  script : List Char
deriving DecidableEq

/-- Helper to write the hard-coded script table with string literals. -/
def mkScriptDef (n m b : String) : SCRIPT_DEF := ⟨n.toList, m.toList, b.toList⟩

/-- The hard-coded script table `script_defaults` of bmp-script.c (the
adjacent C string literals of each entry concatenated). -/
def script_defaults : List SCRIPT_DEF := [
  mkScriptDef "memremap" "LPC8xx,LPC11xx*,LPC11Uxx,LPC12xx,LPC13xx"
    "SYSCON_SYSMEMREMAP = 2",
  mkScriptDef "memremap" "LPC15xx"
    "SYSCON_SYSMEMREMAP = 2",
  mkScriptDef "memremap" "LPC17xx"
    "SCB_MEMMAP = 1",
  mkScriptDef "memremap" "LPC21xx,LPC22xx,LPC23xx,LPC24xx"
    "SCB_MEMMAP = 1",
  mkScriptDef "memremap" "LPC43xx*"
    "M4MEMMAP = 0",
  mkScriptDef "swo_device" "STM32F1*"
    "RCC_APB2ENR |= 1 \nAFIO_MAPR |= 0x2000000 \nDBGMCU_CR |= 0x20 \n",
  mkScriptDef "swo_device" "STM32F03,STM32F05,STM32F07,STM32F09,STM32F2*,STM32F3*"
    "DBGMCU_CR |= 0x20 \n",
  mkScriptDef "swo_device" "STM32F4*,STM32F7*"
    "RCC_AHB1ENR |= 0x02 \nGPIOB_MODER ~= 0x00c0 \nGPIOB_MODER |= 0x0080 \nGPIOB_AFRL ~= 0xf000 \nGPIOB_OSPEEDR |= 0x00c0 \nGPIOB_PUPDR ~= 0x00c0 \nDBGMCU_CR |= 0x20 \n",
  mkScriptDef "swo_device" "LPC13xx"
    "TRACECLKDIV = 1 \nIOCON_PIO0_9 = 0x93 \n",
  mkScriptDef "swo_device" "LPC15xx"
    "TRACECLKDIV = 1\n",
  mkScriptDef "swo_generic" "*"
    "SCB_DEMCR = 0x1000000 \nTPIU_CSPSR = 1 \nTPIU_SPPR = $0 \nTPIU_ACPR = $1 \nTPIU_FFCR = 0 \nITM_LAR = 0xC5ACCE55 \nITM_TCR = 0x11 \nITM_TPR = 0 \n",
  mkScriptDef "swo_generic" "[M0]"
    "$3 = $2 \n",
  mkScriptDef "swo_channels" "*"
    "ITM_TER = $0 \n",
  mkScriptDef "swo_channels" "[M0]"
    "$1 = $0 \n"]

/-- Modelled from the spec: `SCRIPT_MAGIC` is defined in the header
`bmp-script.h`, which is not among the sources given here; the spec fixes
the parameter encoding as the address range `[MAGIC, MAGIC+15]` with
`MAGIC = 0xFFFFFFF0` and the "parameter absent" marker `0xFFFFFFFF`. -/
def SCRIPT_MAGIC : Nat := 0xFFFFFFF0

/-- Value of a hexadecimal digit character (guarded by `isHexA`). -/
def hexVal (c : Char) : Nat :=
  if c.isDigit then c.toNat - 48
  else if decide ('a' ≤ c) ∧ decide (c ≤ 'f') then c.toNat - 87
  else c.toNat - 55

/-- Hexadecimal digit test (ASCII `isxdigit`). -/
def isHexA (c : Char) : Bool :=
  c.isDigit || (decide ('a' ≤ c) && decide (c ≤ 'f')) || (decide ('A' ≤ c) && decide (c ≤ 'F'))

/-- Octal digit test. -/
def isOctA (c : Char) : Bool := decide ('0' ≤ c) && decide (c ≤ '7')

/-- Digit-accumulation loop of `strtoul`. -/
def digitsAux (base : Nat) (isD : Char → Bool) : List Char → Nat → Nat × List Char
  | [], acc => (acc, [])
  | c :: rest, acc =>
      if isD c then digitsAux base isD rest (acc * base + hexVal c)
      else (acc, c :: rest)

/-- The call `strtoul(line, &line, 0)` as used by the parser: a `0x`/`0X` run is
hexadecimal, a leading `0` is octal, otherwise decimal; the second
component is where parsing stopped.  (The callers are already positioned
on a non-space character, and the scripts contain no signs.) -/
def strtoul0 : List Char → Nat × List Char
  | '0' :: 'x' :: rest =>
      if (match rest with | c :: _ => isHexA c | [] => false) then digitsAux 16 isHexA rest 0
      else (0, 'x' :: rest)
  | '0' :: 'X' :: rest =>
      if (match rest with | c :: _ => isHexA c | [] => false) then digitsAux 16 isHexA rest 0
      else (0, 'X' :: rest)
  | '0' :: rest => digitsAux 8 isOctA rest 0
  | l => digitsAux 10 (fun c => c.isDigit) l 0

/-- A compiled script instruction (`SCRIPTLINE` in bmp-script.c). -/
structure SCRIPTLINE where
  address : Nat
  value : Nat
  size : Nat
  oper : Char
deriving DecidableEq

/-- The destination part of `parseline`: a number is an address of width 4,
`$d` is a parameter reference of width 4, otherwise an identifier is
resolved against the register table.  The resolution is the source's
`strncmp(line, registers[r].name, tail - line)` scan: the first register
whose name *begins with* the identifier is taken (`r.name.take idLen =
ident`); `none` is the fatal `assert(r < reg_count)` when no name
matches. -/
def parseDest (registers : List REG_DEF) (line : List Char) :
    Option (Nat × Nat × List Char) :=
  if line.head?.any (fun c => c.isDigit) then
    let p := strtoul0 line
    some (p.1 % 2 ^ 32, 4, p.2)
  else if line.head? == some '$' then
    match line with
    | _ :: d :: rest => some ((SCRIPT_MAGIC + (d.toNat - 48)) % 2 ^ 32, 4, rest)
    | _ => none
  else
    let idLen := (line.takeWhile (fun c => c.isAlphanum || c == '_')).length
    match registers.find? (fun r => r.name.take idLen == line.take idLen) with
    | some r => some (r.address, r.size, line.drop idLen)
    | none => none

/-- The operation part of `parseline`: one of `= | & ~`, where `~` stands
for `&` with the invert flag set; an optional `=` suffix is consumed, and
a `~` before the source value toggles the invert flag.  `none` is the
fatal `assert` on any other operator character. -/
def parseOper (line0 : List Char) : Option (Char × Bool × List Char) :=
  match skipleading line0 with
  | [] => none
  | op :: rest =>
      if op = '=' ∨ op = '|' ∨ op = '&' ∨ op = '~' then
        let oper := if op == '~' then '&' else op
        let inv0 := op == '~'
        let rest1 := match rest with | '=' :: r => r | _ => rest
        match skipleading rest1 with
        | '~' :: r => some (oper, !inv0, skipleading r)
        | r => some (oper, inv0, r)
      else none

/-- The source-value part of `parseline`: `$d` is a parameter reference
(inverting a parameter is only legal with the `&` operator and turns it
into `~`, the source's `AndNot`; any other combination is the fatal
`assert(!invert || *oper == '&')`); a number is parsed with `strtoul` and
complemented at compile time when the invert flag is set. -/
def parseSrc (oper : Char) (invert : Bool) (line : List Char) :
    Option (Char × Nat × List Char) :=
  match line with
  | '$' :: d :: rest =>
      if invert && !(oper == '&') then none
      else if (oper == '&') && invert then
        some ('~', (SCRIPT_MAGIC + (d.toNat - 48)) % 2 ^ 32, rest)
      else some (oper, (SCRIPT_MAGIC + (d.toNat - 48)) % 2 ^ 32, rest)
  | '$' :: [] => none
  | _ =>
      let p := strtoul0 line
      let v := p.1 % 2 ^ 32
      some (oper, if invert then 2 ^ 32 - 1 - v else v, p.2)

/-- The trailing check of `parseline` (the `#ifndef NDEBUG` block): after
the value, only whitespace may follow up to the end of the line; the
returned rest is `skipleading` of the remainder, as in the source. -/
def parseEnd (rest : List Char) : Option (List Char) :=
  match rest.dropWhile (fun c => (c != '\n') && isWsA c) with
  | [] => some (skipleading rest)
  | '\n' :: _ => some (skipleading rest)
  | _ => none

/-- The leading-`set`-keyword handling of `parseline`: any `set` followed
by whitespace (or end of input) at the start of the line is discarded. -/
def stripSetKeyword (line0 : List Char) : List Char :=
  let line1 := skipleading line0
  match line1 with
  | 's' :: 'e' :: 't' :: rest =>
      if (match rest with | [] => true | c :: _ => isWsA c) then skipleading rest
      else line1
  | _ => line1

/-- Function `parseline` from bmp-script.c: one script line into one compiled
instruction, plus the rest of the text (the next line for the hard-coded
multi-line scripts). -/
def parseline (registers : List REG_DEF) (line0 : List Char) :
    Option (SCRIPTLINE × List Char) :=
  let line := stripSetKeyword line0
  match parseDest registers line with
  | none => none
  | some (addr, sz, r1) =>
      match parseOper r1 with
      | none => none
      | some (op, inv, r2) =>
          match parseSrc op inv r2 with
          | none => none
          | some (op2, v, r3) =>
              match parseEnd r3 with
              | none => none
              | some r4 => some (⟨addr, v, sz, op2⟩, r4)

/-- A compiled script of the store (`SCRIPT` in bmp-script.c; the linked
list is modelled as a `List SCRIPT`, the head being `script_root.next`,
i.e. the most recently inserted script). -/
structure SCRIPT where
  name : List Char
  lines : List SCRIPTLINE
deriving DecidableEq

/-- The register list built by `bmscript_load` for an MCU (first step
only: the hard-coded registers; no override file is present). -/
def loadRegisters (mcu : List Char) : List REG_DEF :=
  register_defaults.filter (fun r => mcu_match mcu r.mcu_list)

/-- The `arch_name` string of `bmscript_load`: `[arch]`, or empty when no
architecture was given. -/
def archName (arch : List Char) : List Char :=
  if arch.isEmpty then [] else '[' :: (arch ++ [ ']' ])

/-- Compilation loop over the text of one hard-coded script; fuel-driven
(`compileBody` supplies enough fuel: `parseline` always consumes at least
one character).  `none` is the fatal parse error. -/
def compileBodyAux (registers : List REG_DEF) : Nat → List Char → Option (List SCRIPTLINE)
  | _, [] => some []
  | 0, _ :: _ => none
  | Nat.succ n, l =>
      match parseline registers l with
      | none => none
      | some (sl, rest) =>
          match compileBodyAux registers n rest with
          | none => none
          | some ls => some (sl :: ls)

/-- Compile the body text of a script, line by line, as the hard-coded
script loop of `bmscript_load` does. -/
def compileBody (registers : List REG_DEF) (body : List Char) : Option (List SCRIPTLINE) :=
  compileBodyAux registers (body.length + 1) (skipleading body)

/-- The script list built by `bmscript_load` for an MCU/architecture pair
from the hard-coded `script_defaults` (no override file is present): each
matching entry is compiled and *prepended*, so the head of the result is
the most recently inserted script.  A hard-coded script that fails to
compile is impossible (asserted in the source); such an entry is simply
not added here. -/
def bmscript_load_scripts (mcu arch : List Char) : List SCRIPT :=
  let regs := loadRegisters mcu
  let an := archName arch
  script_defaults.foldl (fun acc sd =>
    if mcu_match mcu sd.mcu_list || (!an.isEmpty && mcu_match an sd.mcu_list) then
      match compileBody regs sd.script with
      | some ls => ⟨sd.name, ls⟩ :: acc
      | none => acc
    else acc) []

/-- The iterator cursor (`REG_CACHE` in bmp-script.c).  `name = none` is
the `NULL` initial state. -/
structure REG_CACHE where
  name : Option (List Char)
  lines : List SCRIPTLINE
  count : Nat
  index : Nat
deriving DecidableEq

/-- The initial value of the global `cache` variable. -/
def cache_init : REG_CACHE := ⟨none, [], 0, 0⟩

/-- Function `bmscript_clearcache` from bmp-script.c: reset the cursor, whatever
its previous state. -/
def bmscript_clearcache (_c : REG_CACHE) : REG_CACHE := ⟨none, [], 0, 0⟩

/-- The script lookup of `bmscript_line`: first script of the store whose
name equals the requested name case-insensitively (`stricmp`). -/
def findScript (name : List Char) (store : List SCRIPT) : Option SCRIPT :=
  store.find? (fun s => stricmpEq name s.name)

/-- Function `bmscript_line` from bmp-script.c: produce the next instruction of the
named script.  `nameArg = none` continues the script cached in the cursor
(fatal when there is none).  When the cursor's cached name differs from
the request under `strcmp` (exact, case-sensitive), the lookup re-runs and
the cursor is reset to instruction 0; the cached name is the *script's*
name, not the query.  At end of script, `none` is returned and the cursor
is left as it is. -/
def bmscript_line (nameArg : Option (List Char)) (store : List SCRIPT) (c : REG_CACHE) :
    Option SCRIPTLINE × REG_CACHE :=
  match (match nameArg with | some n => some n | none => c.name) with
  | none => (none, c)
  | some name =>
      let c1opt : Option REG_CACHE :=
        match c.name with
        | some cn =>
            if cn = name then some c
            else
              match findScript name store with
              | some s => some ⟨some s.name, s.lines, s.lines.length, 0⟩
              | none => none
        | none =>
            match findScript name store with
            | some s => some ⟨some s.name, s.lines, s.lines.length, 0⟩
            | none => none
      match c1opt with
      | none => (none, c)
      | some c1 =>
          if c1.index == c1.count then (none, c1)
          else
            match c1.lines.get? c1.index with
            | some sl => (some sl, { c1 with index := c1.index + 1 })
            | none => (none, c1)

/-- The operator string of `bmscript_line_fmt`'s `switch (oper)`; `none`
is the fatal `assert(0)` default. -/
def operStr (oper : Char) : Option String :=
  if oper == '=' then some "="
  else if oper == '|' then some "|="
  else if oper == '&' then some "&="
  else if oper == '~' then some "&= ~"
  else none

/-- Rendering of `sprintf "%x"`: minimal-width lowercase hexadecimal. -/
def hexStr (n : Nat) : String := String.mk (Nat.toDigits 16 n)

/-- The value after parameter substitution in `bmscript_line_fmt`: a value
in `[MAGIC, MAGIC+15]` is replaced by the parameter it encodes (cast to
`uint32_t`).  The source indexes `params` without a bound check; the
caller must supply enough entries (missing ones read as 0 here). -/
def resolveVal (params : List Nat) (sl : SCRIPTLINE) : Nat :=
  if sl.value / 16 * 16 == SCRIPT_MAGIC then (params.getD (sl.value % 16) 0) % 2 ^ 32
  else sl.value

/-- The rendering part of `bmscript_line_fmt`: operator string, parameter
substitution in address (with the `~0` "parameter absent" skip) and value,
then one `set {type}0xADDR OP 0xVAL\n` line with the value masked to the
width.  `none` is either the skip or a fatal `assert(0)` (bad operator or
width, unreachable for compiled instructions). -/
def renderInstr (params : List Nat) (sl : SCRIPTLINE) : Option String :=
  match operStr sl.oper with
  | none => none
  | some ops =>
      let addrStep : Option Nat :=
        if sl.address / 16 * 16 == SCRIPT_MAGIC then
          let a := (params.getD (sl.address % 16) 0) % 2 ^ 32
          if a == 0xFFFFFFFF then none else some a
        else some sl.address
      match addrStep with
      | none => none
      | some addr =>
          let v := resolveVal params sl
          match sl.size with
          | 1 => some ("set {char}0x" ++ hexStr addr ++ " " ++ ops ++ " 0x" ++ hexStr (v % 256) ++ "\n")
          | 2 => some ("set {short}0x" ++ hexStr addr ++ " " ++ ops ++ " 0x" ++ hexStr (v % 65536) ++ "\n")
          | 4 => some ("set {int}0x" ++ hexStr addr ++ " " ++ ops ++ " 0x" ++ hexStr v ++ "\n")
          | _ => none

/-- Function `bmscript_line_fmt` from bmp-script.c: fetch the next instruction and
render it.  Every path through the source advances the cursor via
`bmscript_line` first; a skipped (sentinel address) line therefore still
advances the cursor. -/
def bmscript_line_fmt (nameArg : Option (List Char)) (params : List Nat)
    (store : List SCRIPT) (c : REG_CACHE) : Option String × REG_CACHE :=
  match bmscript_line nameArg store c with
  | (none, c2) => (none, c2)
  | (some sl, c2) =>
      match renderInstr params sl with
      | none => (none, c2)
      | some s => (some s, c2)

/-- The whole engine state: the `script_root` name (used to detect a
reload of the same MCU), the script store, and the cursor. -/
structure ENGINE where
  root_name : Option (List Char)
  scripts : List SCRIPT
  cache : REG_CACHE
deriving DecidableEq

/-- The initial state of the globals (`script_root = {NULL,NULL,NULL,0}`,
`cache = {NULL,NULL,0,0}`). -/
def engine_init : ENGINE := ⟨none, [], cache_init⟩

/-- Function `bmscript_clear` from bmp-script.c: clear the cursor, free all
scripts, free the root name. -/
def bmscript_clear (_e : ENGINE) : ENGINE := ⟨none, [], cache_init⟩

/-- Function `bmscript_load` from bmp-script.c (no override file present): when the
remembered root name equals the requested MCU, return the current script
count unchanged; otherwise clear everything and rebuild the store from the
hard-coded tables.  Faithful to the source, nothing ever assigns the root
name, so it remains `none`. -/
def bmscript_load (mcu arch : List Char) (e : ENGINE) : Nat × ENGINE :=
  if e.root_name = some mcu then (e.scripts.length, e)
  else
    let ss := bmscript_load_scripts mcu arch
    (ss.length, ⟨none, ss, cache_init⟩)

/-- The result list of `n` successive `format(name, params)` calls
(`bmscript_line_fmt` with the name passed every call), threading the
cursor. -/
def callsFmt (name : List Char) (params : List Nat) (store : List SCRIPT) :
    Nat → REG_CACHE → List (Option String)
  | 0, _ => []
  | Nat.succ n, c =>
      let r := bmscript_line_fmt (some name) params store c
      r.1 :: callsFmt name params store n r.2

/-- Drain the raw instruction stream: successive `bmscript_line` calls
with the same name until the first `none`, collecting the instructions. -/
def drainLine (name : List Char) (store : List SCRIPT) :
    Nat → REG_CACHE → List SCRIPTLINE
  | 0, _ => []
  | Nat.succ n, c =>
      match bmscript_line (some name) store c with
      | (none, _) => []
      | (some sl, c2) => sl :: drainLine name store n c2

/-- Reflexivity of `stricmpEq`. -/
theorem stricmpEq_refl (l : List Char) : stricmpEq l l = true := by
  induction l with
  | nil => rfl
  | cons c r ih => simp [stricmpEq, ih]

/-- C2 (code bug): on the family `"STM32F103 M3"` (architecture suffix
present) and the single-token list `"STM32F103"`, the code's matcher
returns false, while the claim's two-pass description (pass 1 against the
*stripped* family) says it matches: pass 1 computes the stripped length
but hands the unstripped family to `architecture_match`, whose
end-of-string check then always fails once a suffix was stripped. -/
theorem claim_C2_bug :
    mcu_match ("STM32F103 M3".toList) ("STM32F103".toList) = false
    ∧ specMatches ("STM32F103 M3".toList) ("STM32F103".toList) = true := by
  constructor
  · decide
  · decide

/-- C1 (counterexample): the first `format("swo_generic", ...)` call after
loading for `"STM32F407"`/`"M4"` yields the line with the address printed
in lowercase hexadecimal (`sprintf "%x"`), not the uppercase string of the
claim. -/
theorem claim_C1_counterexample :
    callsFmt ("swo_generic".toList) [2, 15, 115200, 0xFFFFFFFF]
        (bmscript_load_scripts ("STM32F407".toList) ("M4".toList)) 1 cache_init
      = [some "set {int}0xe000edfc = 0x1000000\n"]
    ∧ ("set {int}0xe000edfc = 0x1000000\n" : String) ≠ "set {int}0xE000EDFC = 0x1000000\n" := by
  constructor
  · decide
  · decide

/-- C1 (amended): after load for family `"STM32F407"` with architecture
`"M4"` and no override file, successive `format("swo_generic", [2, 15,
115200, 0xFFFFFFFF])` calls yield exactly the eight command strings of the
claim with all hexadecimal output in lowercase, one per call, and then no
further string. -/
theorem claim_C1_amended :
    callsFmt ("swo_generic".toList) [2, 15, 115200, 0xFFFFFFFF]
        (bmscript_load_scripts ("STM32F407".toList) ("M4".toList)) 10 cache_init
      = [some "set {int}0xe000edfc = 0x1000000\n",
         some "set {int}0xe0040004 = 0x1\n",
         some "set {int}0xe00400f0 = 0x2\n",
         some "set {int}0xe0040010 = 0xf\n",
         some "set {int}0xe0040304 = 0x0\n",
         some "set {int}0xe0000fb0 = 0xc5acce55\n",
         some "set {int}0xe0000e80 = 0x11\n",
         some "set {int}0xe0000e40 = 0x0\n",
         none, none] := by
  decide

/-- C3 (counterexample): the identifier `SCB_D` is not the name of any
register admitted for `"STM32F407"`, yet it resolves - to the first table
entry whose name it is a proper prefix of (`SCB_DHCSR`, address
`0xE000EDF0`) - because the source compares with
`strncmp(line, name, tail - line)`, i.e. only over the identifier's own
length.  This falsifies the claim's "merely a proper prefix ... does not
resolve to any entry". -/
theorem claim_C3_counterexample :
    parseline (loadRegisters ("STM32F407".toList)) ("SCB_D = 1".toList)
      = some (⟨0xE000EDF0, 1, 4, '='⟩, [])
    ∧ ((loadRegisters ("STM32F407".toList)).all
        (fun r => !(r.name == "SCB_D".toList))) = true := by
  constructor
  · decide
  · decide

/-- C4: compile-time inversion.  `GPIOB_MODER ~= 0x00c0` (registers of an
STM32F4 family) compiles to operator `&` (And), address `0x40020400`,
value `0xFFFFFF3F`, width 4; and for every digit `d`, `~$d` under `&=`
compiles to the AndNot operator `~` with the parameter encoding
`MAGIC + d`, while `~$d` under `|=` or `=` is the fatal
`assert(!invert || *oper == '&')`. -/
theorem claim_C4 :
    parseline (loadRegisters ("STM32F407".toList)) ("GPIOB_MODER ~= 0x00c0".toList)
      = some (⟨0x40020400, 0xFFFFFF3F, 4, '&'⟩, [])
    ∧ ([ '0', '1', '2', '3', '4', '5', '6', '7', '8', '9' ].all (fun d =>
        decide (parseline (loadRegisters ("STM32F407".toList))
            ("ITM_TER &= ~$".toList ++ [d])
          = some (⟨0xE0000E00, SCRIPT_MAGIC + (d.toNat - 48), 4, '~'⟩, []))
        && decide (parseline (loadRegisters ("STM32F407".toList))
            ("ITM_TER |= ~$".toList ++ [d]) = none)
        && decide (parseline (loadRegisters ("STM32F407".toList))
            ("ITM_TER = ~$".toList ++ [d]) = none))) = true := by
  constructor
  · decide
  · decide

/-- C8 (code bug): `script_root.name` is never assigned anywhere in the
source, so the same-MCU early exit of `bmscript_load` never fires and a
second `load` with the same MCU is *not* a no-op: it tears the store down
and rebuilds it, resetting the iterator cursor (here from index 1 back to
0), although it does return the same script count. -/
theorem claim_C8_bug :
    (bmscript_load ("STM32F407".toList) ("M4".toList) engine_init).2.root_name = none
    ∧ (bmscript_line (some ("swo_generic".toList))
        (bmscript_load ("STM32F407".toList) ("M4".toList) engine_init).2.scripts
        (bmscript_load ("STM32F407".toList) ("M4".toList) engine_init).2.cache).2.index = 1
    ∧ (bmscript_load ("STM32F407".toList) ("M4".toList)
        ⟨(bmscript_load ("STM32F407".toList) ("M4".toList) engine_init).2.root_name,
         (bmscript_load ("STM32F407".toList) ("M4".toList) engine_init).2.scripts,
         (bmscript_line (some ("swo_generic".toList))
           (bmscript_load ("STM32F407".toList) ("M4".toList) engine_init).2.scripts
           (bmscript_load ("STM32F407".toList) ("M4".toList) engine_init).2.cache).2⟩).2.cache.index = 0
    ∧ (bmscript_load ("STM32F407".toList) ("M4".toList)
        ⟨(bmscript_load ("STM32F407".toList) ("M4".toList) engine_init).2.root_name,
         (bmscript_load ("STM32F407".toList) ("M4".toList) engine_init).2.scripts,
         (bmscript_line (some ("swo_generic".toList))
           (bmscript_load ("STM32F407".toList) ("M4".toList) engine_init).2.scripts
           (bmscript_load ("STM32F407".toList) ("M4".toList) engine_init).2.cache).2⟩).1
      = (bmscript_load ("STM32F407".toList) ("M4".toList) engine_init).1 := by
  refine ⟨by decide, by decide, by decide, by decide⟩

/-- C9: running `format` repeatedly after a cursor reset is a function of
the store and arguments only - the reset erases every trace of the
previous iteration, so a rerun after `clear_cursor` yields the identical
sequence of strings; and once the cursor sits at end-of-script, a further
`next` call with the same name returns `none` and leaves the cursor
exactly where it was (end of script) until it is reset. -/
theorem claim_C9 (name : List Char) (params : List Nat) (store : List SCRIPT)
    (n : Nat) (cPrev c : REG_CACHE)
    (hname : c.name = some name) (hend : c.index = c.count) :
    callsFmt name params store n (bmscript_clearcache cPrev)
      = callsFmt name params store n cache_init
    ∧ bmscript_line (some name) store c = (none, c) := by
  constructor
  · rfl
  · simp [bmscript_line, hname, hend]

/-- Witness for C9 at a concrete exhausted cursor. -/
theorem claim_C9_witness :
    callsFmt ("swo_generic".toList) [] [] 3 (bmscript_clearcache ⟨some [ 'a' ], [], 5, 5⟩)
      = callsFmt ("swo_generic".toList) [] [] 3 cache_init
    ∧ bmscript_line (some ("swo_generic".toList)) []
        ⟨some ("swo_generic".toList), [], 0, 0⟩
      = (none, ⟨some ("swo_generic".toList), [], 0, 0⟩) :=
  claim_C9 ("swo_generic".toList) [] [] 3 ⟨some [ 'a' ], [], 5, 5⟩
    ⟨some ("swo_generic".toList), [], 0, 0⟩ rfl rfl

/-- C6: when the current instruction's address is a parameter reference
(`[MAGIC, MAGIC+15]`) and the parameter it resolves to is the sentinel
`0xFFFFFFFF`, `format` returns `none` and emits nothing, but the cursor
has already advanced past the instruction, so the next call continues
with the following instruction of the script. -/
theorem claim_C6 (store : List SCRIPT) (nm : List Char) (params : List Nat)
    (c : REG_CACHE) (sl : SCRIPTLINE)
    (hname : c.name = some nm) (hcnt : c.count = c.lines.length)
    (hget : c.lines.get? c.index = some sl)
    (hop : operStr sl.oper ≠ none)
    (hmagic : sl.address / 16 * 16 = SCRIPT_MAGIC)
    (hparam : (params.getD (sl.address % 16) 0) % 2 ^ 32 = 0xFFFFFFFF) :
    bmscript_line_fmt (some nm) params store c
      = (none, { c with index := c.index + 1 }) := by
  have hlt : c.index < c.lines.length := List.get?_eq_some.1 hget |>.1
  have hne : (c.index == c.count) = false := by
    simp [hcnt]; omega
  have hget2 : c.lines[c.index]? = some sl := by simpa using hget
  have hparam2 : params[sl.address % 16]?.getD 0 % 4294967296 = 4294967295 := by
    have := hparam
    simp only [List.getD] at this
    simpa using this
  obtain ⟨ops, hops⟩ := Option.ne_none_iff_exists'.1 hop
  simp [bmscript_line_fmt, bmscript_line, hname, hne, hget2, renderInstr, hops, hmagic,
    List.getD, hparam2]

/-- Witness for C6: the `[M0]` overlay line `$3 = $2` with `params[3] =
0xFFFFFFFF` is skipped, yet the cursor advances from 0 to 1. -/
theorem claim_C6_witness :
    bmscript_line_fmt (some ("swo_generic".toList)) [0, 0, 115200, 0xFFFFFFFF] []
        ⟨some ("swo_generic".toList), [⟨0xFFFFFFF3, 0xFFFFFFF2, 4, '='⟩], 1, 0⟩
      = (none, ⟨some ("swo_generic".toList), [⟨0xFFFFFFF3, 0xFFFFFFF2, 4, '='⟩], 1, 1⟩) :=
  claim_C6 [] ("swo_generic".toList) [0, 0, 115200, 0xFFFFFFFF]
    ⟨some ("swo_generic".toList), [⟨0xFFFFFFF3, 0xFFFFFFF2, 4, '='⟩], 1, 0⟩
    ⟨0xFFFFFFF3, 0xFFFFFFF2, 4, '='⟩
    rfl rfl rfl (by decide) (by decide) (by decide)

/-- Characterisation: `stricmpEq` is equality of the uppercased strings. -/
theorem stricmpEq_eq_map (a : List Char) : ∀ b : List Char,
    stricmpEq a b = (a.map Char.toUpper == b.map Char.toUpper) := by
  induction a with
  | nil => intro b; cases b <;> simp [stricmpEq]
  | cons c r ih =>
      intro b
      cases b with
      | nil => simp [stricmpEq]
      | cons d t => simp [stricmpEq, ih t, Bool.and_comm]

/-- Strings equal under `stricmp` compare equally (under `stricmp`)
against every third string. -/
theorem stricmpEq_congr_left (nq nm : List Char) (h : stricmpEq nq nm = true)
    (x : List Char) : stricmpEq nq x = stricmpEq nm x := by
  rw [stricmpEq_eq_map] at h
  rw [stricmpEq_eq_map, stricmpEq_eq_map, (by simpa using h : nq.map Char.toUpper = nm.map Char.toUpper)]

/-- The script lookup gives the same result for names that are equal
case-insensitively. -/
theorem findScript_congr (nq nm : List Char) (h : stricmpEq nq nm = true)
    (store : List SCRIPT) : findScript nq store = findScript nm store := by
  induction store with
  | nil => rfl
  | cons s t ih =>
      simp only [findScript, List.find?_cons] at *
      rw [stricmpEq_congr_left nq nm h s.name]
      cases stricmpEq nm s.name <;> simp [ih]

/-- C10: the cursor cache is keyed by `strcmp` (case-sensitive) although
the lookup uses `stricmp`.  With the cursor partway (index `i`) through
script `s`, a `next` call whose name differs from the cached `s.name` only
in letter case re-runs the lookup, finds the same script, and restarts it
at instruction 0; a call with exactly the cached name, or with no name at
all, continues from the current position. -/
theorem claim_C10 (store : List SCRIPT) (s : SCRIPT) (nq : List Char) (i : Nat)
    (hfind : findScript s.name store = some s)
    (hvar : stricmpEq nq s.name = true) (hne : nq ≠ s.name)
    (hi : i < s.lines.length) :
    bmscript_line (some nq) store ⟨some s.name, s.lines, s.lines.length, i⟩
      = (s.lines.get? 0, ⟨some s.name, s.lines, s.lines.length, 1⟩)
    ∧ bmscript_line (some s.name) store ⟨some s.name, s.lines, s.lines.length, i⟩
      = (s.lines.get? i, ⟨some s.name, s.lines, s.lines.length, i + 1⟩)
    ∧ bmscript_line none store ⟨some s.name, s.lines, s.lines.length, i⟩
      = (s.lines.get? i, ⟨some s.name, s.lines, s.lines.length, i + 1⟩) := by
  have hfind2 : findScript nq store = some s := by
    rw [findScript_congr nq s.name hvar]; exact hfind
  have hsne : s.name ≠ nq := Ne.symm hne
  have hlen : 0 < s.lines.length := Nat.lt_of_le_of_lt (Nat.zero_le i) hi
  have h0 : (0 == s.lines.length) = false := by simp; omega
  have hii : (i == s.lines.length) = false := by simp; omega
  have hx0 : s.lines[0]? = some s.lines[0] := List.getElem?_eq_getElem hlen
  have hxi : s.lines[i]? = some s.lines[i] := List.getElem?_eq_getElem hi
  refine ⟨?_, ?_, ?_⟩
  · simp [bmscript_line, hsne, hfind2, hx0, h0]
  · simp [bmscript_line, hxi, hii]
  · simp [bmscript_line, hxi, hii]

/-- Witness for C10 at a concrete two-line script queried as
`"SWO_GENERIC"` while the cache holds `"swo_generic"`. -/
theorem claim_C10_witness :
    bmscript_line (some ("SWO_GENERIC".toList))
        [⟨"swo_generic".toList, [⟨1, 2, 4, '='⟩, ⟨3, 4, 4, '='⟩]⟩]
        ⟨some ("swo_generic".toList), [⟨1, 2, 4, '='⟩, ⟨3, 4, 4, '='⟩], 2, 1⟩
      = (([⟨1, 2, 4, '='⟩, ⟨3, 4, 4, '='⟩] : List SCRIPTLINE).get? 0,
         ⟨some ("swo_generic".toList), [⟨1, 2, 4, '='⟩, ⟨3, 4, 4, '='⟩], 2, 1⟩)
    ∧ bmscript_line (some ("swo_generic".toList))
        [⟨"swo_generic".toList, [⟨1, 2, 4, '='⟩, ⟨3, 4, 4, '='⟩]⟩]
        ⟨some ("swo_generic".toList), [⟨1, 2, 4, '='⟩, ⟨3, 4, 4, '='⟩], 2, 1⟩
      = (([⟨1, 2, 4, '='⟩, ⟨3, 4, 4, '='⟩] : List SCRIPTLINE).get? 1,
         ⟨some ("swo_generic".toList), [⟨1, 2, 4, '='⟩, ⟨3, 4, 4, '='⟩], 2, 2⟩)
    ∧ bmscript_line none
        [⟨"swo_generic".toList, [⟨1, 2, 4, '='⟩, ⟨3, 4, 4, '='⟩]⟩]
        ⟨some ("swo_generic".toList), [⟨1, 2, 4, '='⟩, ⟨3, 4, 4, '='⟩], 2, 1⟩
      = (([⟨1, 2, 4, '='⟩, ⟨3, 4, 4, '='⟩] : List SCRIPTLINE).get? 1,
         ⟨some ("swo_generic".toList), [⟨1, 2, 4, '='⟩, ⟨3, 4, 4, '='⟩], 2, 2⟩) :=
  claim_C10 [⟨"swo_generic".toList, [⟨1, 2, 4, '='⟩, ⟨3, 4, 4, '='⟩]⟩]
    ⟨"swo_generic".toList, [⟨1, 2, 4, '='⟩, ⟨3, 4, 4, '='⟩]⟩
    ("SWO_GENERIC".toList) 1 (by decide) (by decide) (by decide) (by decide)

/-- Draining the iterator from a cursor that sits at index `k` of a cached
script yields exactly the remaining instructions, in order. -/
theorem drain_go (name : List Char) (store : List SCRIPT) (lines : List SCRIPTLINE) :
    ∀ (fuel k : Nat), lines.length ≤ k + fuel →
      drainLine name store fuel ⟨some name, lines, lines.length, k⟩ = lines.drop k := by
  intro fuel
  induction fuel with
  | zero =>
      intro k h
      simp only [drainLine]
      exact (List.drop_eq_nil_of_le (by omega)).symm
  | succ n ih =>
      intro k h
      by_cases hk : k < lines.length
      · have hkk : (k == lines.length) = false := by simp; omega
        have hx : lines[k]? = some lines[k] := List.getElem?_eq_getElem hk
        simp [drainLine, bmscript_line, hkk, hx]
        rw [ih (k + 1) (by omega)]
        exact (List.drop_eq_getElem_cons hk).symm
      · have hge : lines.length ≤ k := Nat.le_of_not_lt hk
        by_cases heq : k = lines.length
        · simp [drainLine, bmscript_line, heq, List.drop_eq_nil_of_le hge]
        · have hkk : (k == lines.length) = false := by simp; omega
          have hnone : lines[k]? = none := by
            rw [List.getElem?_eq_none_iff]; omega
          simp [drainLine, bmscript_line, hkk, hnone, List.drop_eq_nil_of_le hge]

/-- C5: the store keeps the most recently inserted script at the front and
lookup returns the first match, without touching older entries: for a
script `s` inserted after any older scripts (`rest`, which may contain
older scripts of the same name), the lookup under `s`'s own name returns
`s`, and draining the iterator from a fresh cursor yields exactly `s`'s
instructions, front to back. -/
theorem claim_C5 (s : SCRIPT) (rest : List SCRIPT) :
    findScript s.name (s :: rest) = some s
    ∧ drainLine s.name (s :: rest) (s.lines.length + 1) cache_init = s.lines := by
  have hf : findScript s.name (s :: rest) = some s := by
    simp [findScript, List.find?_cons, stricmpEq_refl]
  refine ⟨hf, ?_⟩
  have hstep : bmscript_line (some s.name) (s :: rest) cache_init
      = bmscript_line (some s.name) (s :: rest) ⟨some s.name, s.lines, s.lines.length, 0⟩ := by
    simp [bmscript_line, cache_init, hf]
  calc drainLine s.name (s :: rest) (s.lines.length + 1) cache_init
      = drainLine s.name (s :: rest) (s.lines.length + 1)
          ⟨some s.name, s.lines, s.lines.length, 0⟩ := by
        simp only [drainLine]
        rw [hstep]
    _ = s.lines.drop 0 :=
        drain_go s.name (s :: rest) s.lines (s.lines.length + 1) 0 (by omega)
    _ = s.lines := List.drop_zero s.lines

/-- The width of a compiled destination is 4 (number or parameter) or the
width of the resolved register. -/
theorem parseDest_inv (registers : List REG_DEF) (line : List Char)
    (a sz : Nat) (r : List Char)
    (hreg : ∀ rd ∈ registers, rd.size = 1 ∨ rd.size = 2 ∨ rd.size = 4)
    (h : parseDest registers line = some (a, sz, r)) :
    sz = 1 ∨ sz = 2 ∨ sz = 4 := by
  unfold parseDest at h
  split at h
  · simp only [Option.some.injEq, Prod.mk.injEq] at h
    omega
  · split at h
    · split at h
      all_goals first
        | exact Option.noConfusion h
        | (simp only [Option.some.injEq, Prod.mk.injEq] at h; omega)
    · dsimp only at h
      split at h
      · rename_i rd heq
        have hmem : rd ∈ registers := List.mem_of_find?_eq_some heq
        simp only [Option.some.injEq, Prod.mk.injEq] at h
        have := hreg rd hmem
        omega
      · exact Option.noConfusion h

/-- The compiled source value always fits in 32 bits. -/
theorem parseSrc_inv (oper : Char) (invert : Bool) (line : List Char)
    (op2 : Char) (v : Nat) (r : List Char)
    (h : parseSrc oper invert line = some (op2, v, r)) : v < 2 ^ 32 := by
  unfold parseSrc at h
  split at h
  · split at h
    · exact Option.noConfusion h
    · split at h
      all_goals
        simp only [Option.some.injEq, Prod.mk.injEq] at h
      all_goals
        have hm := Nat.mod_lt (SCRIPT_MAGIC + ((‹Char›).toNat - 48))
          (show 0 < 2 ^ 32 by norm_num)
      all_goals omega
  · exact Option.noConfusion h
  · simp only [Option.some.injEq, Prod.mk.injEq] at h
    obtain ⟨-, hv, -⟩ := h
    have hm : (strtoul0 line).1 % 2 ^ 32 < 2 ^ 32 :=
      Nat.mod_lt _ (show 0 < 2 ^ 32 by norm_num)
    cases invert <;> simp at hv <;> omega

/-- Invariant of one compiled instruction: width in `{1,2,4}` (given the
register table only has such widths) and a 32-bit value. -/
theorem parseline_inv (registers : List REG_DEF) (line0 : List Char)
    (sl : SCRIPTLINE) (rest : List Char)
    (hreg : ∀ rd ∈ registers, rd.size = 1 ∨ rd.size = 2 ∨ rd.size = 4)
    (h : parseline registers line0 = some (sl, rest)) :
    (sl.size = 1 ∨ sl.size = 2 ∨ sl.size = 4) ∧ sl.value < 2 ^ 32 := by
  unfold parseline at h
  dsimp only at h
  split at h
  · exact Option.noConfusion h
  · rename_i dest heqdest
    split at h
    · exact Option.noConfusion h
    · rename_i opr heqop
      split at h
      · exact Option.noConfusion h
      · rename_i src heqsrc
        split at h
        · exact Option.noConfusion h
        · simp only [Option.some.injEq, Prod.mk.injEq] at h
          obtain ⟨hsl, -⟩ := h
          subst hsl
          exact ⟨parseDest_inv _ _ _ _ _ hreg heqdest,
                 parseSrc_inv _ _ _ _ _ _ heqsrc⟩

/-- The instruction invariant lifts through the script-compilation loop. -/
theorem compileBodyAux_inv (registers : List REG_DEF)
    (hreg : ∀ rd ∈ registers, rd.size = 1 ∨ rd.size = 2 ∨ rd.size = 4) :
    ∀ (fuel : Nat) (l : List Char) (ls : List SCRIPTLINE),
      compileBodyAux registers fuel l = some ls →
      ∀ sl ∈ ls, (sl.size = 1 ∨ sl.size = 2 ∨ sl.size = 4) ∧ sl.value < 2 ^ 32 := by
  intro fuel
  induction fuel with
  | zero =>
      intro l ls h sl hsl
      cases l with
      | nil =>
          simp only [compileBodyAux, Option.some.injEq] at h
          subst h
          exact absurd hsl (List.not_mem_nil sl)
      | cons c cs => exact Option.noConfusion h
  | succ n ih =>
      intro l ls h sl hsl
      cases l with
      | nil =>
          simp only [compileBodyAux, Option.some.injEq] at h
          subst h
          exact absurd hsl (List.not_mem_nil sl)
      | cons c cs =>
          simp only [compileBodyAux] at h
          split at h
          · exact Option.noConfusion h
          · rename_i sl2 rest2 heqp
            split at h
            · exact Option.noConfusion h
            · rename_i ls2 heqls
              simp only [Option.some.injEq] at h
              subst h
              rcases List.mem_cons.1 hsl with heq | hmem
              · subst heq
                exact parseline_inv registers (c :: cs) sl rest2 hreg heqp
              · exact ih rest2 ls2 heqls sl hmem

/-- The instruction invariant lifts through the script-store fold of the
loader. -/
theorem load_fold_inv (mcu an : List Char) (regs : List REG_DEF)
    (P : SCRIPTLINE → Prop)
    (hc : ∀ (body : List Char) (ls : List SCRIPTLINE),
        compileBody regs body = some ls → ∀ sl ∈ ls, P sl) :
    ∀ (sds : List SCRIPT_DEF) (acc : List SCRIPT),
      (∀ t ∈ acc, ∀ sl ∈ t.lines, P sl) →
      ∀ t ∈ sds.foldl (fun acc2 sd =>
          if mcu_match mcu sd.mcu_list || (!an.isEmpty && mcu_match an sd.mcu_list) then
            match compileBody regs sd.script with
            | some ls => (⟨sd.name, ls⟩ : SCRIPT) :: acc2
            | none => acc2
          else acc2) acc,
      ∀ sl ∈ t.lines, P sl := by
  intro sds
  induction sds with
  | nil =>
      intro acc hacc t ht
      simp only [List.foldl_nil] at ht
      exact hacc t ht
  | cons sd tl ih =>
      intro acc hacc t ht
      rw [List.foldl_cons] at ht
      refine ih _ ?_ t ht
      intro t2 ht2
      split at ht2
      · split at ht2
        · rename_i ls heqls
          rcases List.mem_cons.1 ht2 with heq | hmem
          · subst heq
            exact hc sd.script ls heqls
          · exact hacc t2 hmem
        · exact hacc t2 ht2
      · exact hacc t2 ht2

/-- The instruction invariant holds for every script the loader builds,
for every MCU and architecture. -/
theorem load_scripts_inv (mcu arch : List Char) (s : SCRIPT)
    (hs : s ∈ bmscript_load_scripts mcu arch) :
    ∀ sl ∈ s.lines, (sl.size = 1 ∨ sl.size = 2 ∨ sl.size = 4) ∧ sl.value < 2 ^ 32 := by
  have hreg : ∀ rd ∈ loadRegisters mcu, rd.size = 1 ∨ rd.size = 2 ∨ rd.size = 4 := by
    intro rd hrd
    have hmem : rd ∈ register_defaults := List.mem_of_mem_filter hrd
    have hall : ∀ x ∈ register_defaults, x.size = 1 ∨ x.size = 2 ∨ x.size = 4 := by decide
    exact hall rd hmem
  have hc : ∀ (body : List Char) (ls : List SCRIPTLINE),
      compileBody (loadRegisters mcu) body = some ls →
      ∀ sl ∈ ls, (sl.size = 1 ∨ sl.size = 2 ∨ sl.size = 4) ∧ sl.value < 2 ^ 32 := by
    intro body ls h
    exact compileBodyAux_inv (loadRegisters mcu) hreg (body.length + 1) (skipleading body) ls h
  unfold bmscript_load_scripts at hs
  exact load_fold_inv mcu (archName arch) (loadRegisters mcu) _ hc script_defaults []
    (by intro t ht; exact absurd ht (List.not_mem_nil t)) s hs

/-- C7: every instruction compiled by the loader (any MCU, any
architecture) has width 1, 2 or 4, and whenever `format` renders an
instruction it emits exactly one line `set {<type>}0x<addr> <op>
0x<value>\n` with `char`/`short`/`int` for widths 1/2/4, the operator
string of the instruction's operator, and the value masked to the width
(`value % 2^(8*width)`). -/
theorem claim_C7 (mcu arch : List Char) (s : SCRIPT) (sl : SCRIPTLINE)
    (hs : s ∈ bmscript_load_scripts mcu arch) (hl : sl ∈ s.lines) :
    (sl.size = 1 ∨ sl.size = 2 ∨ sl.size = 4)
    ∧ ∀ (params : List Nat) (line : String), renderInstr params sl = some line →
        ∃ ops addr, operStr sl.oper = some ops ∧
          line = (if sl.size = 1 then "set {char}0x"
                  else if sl.size = 2 then "set {short}0x" else "set {int}0x")
            ++ hexStr addr ++ " " ++ ops ++ " 0x"
            ++ hexStr (resolveVal params sl % 2 ^ (8 * sl.size)) ++ "\n" := by
  have hmain := load_scripts_inv mcu arch s hs sl hl
  refine ⟨hmain.1, ?_⟩
  intro params line h
  have hv : resolveVal params sl < 2 ^ 32 := by
    unfold resolveVal
    split
    · exact Nat.mod_lt _ (by norm_num)
    · exact hmain.2
  unfold renderInstr at h
  split at h
  · exact Option.noConfusion h
  · rename_i ops heqop
    dsimp only at h
    split at h
    · exact Option.noConfusion h
    · rename_i addr heqaddr
      refine ⟨ops, addr, heqop, ?_⟩
      split at h
      · rename_i hsz
        simp only [Option.some.injEq] at h
        rw [← h, hsz]
        norm_num
      · rename_i hsz
        simp only [Option.some.injEq] at h
        rw [← h, hsz]
        norm_num
      · rename_i hsz
        simp only [Option.some.injEq] at h
        rw [← h, hsz]
        have hv2 : resolveVal params sl < 4294967296 := by simpa using hv
        norm_num [Nat.mod_eq_of_lt hv2]
      · exact Option.noConfusion h

/-- Witness for C7 at the head script loaded for `"STM32F407"`/`"M4"`
(`swo_channels`, line `ITM_TER = $0`) with parameter vector `[5]`. -/
theorem claim_C7_witness :
    ((4 : Nat) = 1 ∨ (4 : Nat) = 2 ∨ (4 : Nat) = 4)
    ∧ ∃ ops addr, operStr '=' = some ops ∧
        "set {int}0xe0000e00 = 0x5\n"
          = (if (4 : Nat) = 1 then "set {char}0x"
             else if (4 : Nat) = 2 then "set {short}0x" else "set {int}0x")
            ++ hexStr addr ++ " " ++ ops ++ " 0x"
            ++ hexStr (resolveVal [5] ⟨0xE0000E00, 0xFFFFFFF0, 4, '='⟩ % 2 ^ (8 * 4)) ++ "\n" := by
  have h := claim_C7 ("STM32F407".toList) ("M4".toList)
    ⟨"swo_channels".toList, [⟨0xE0000E00, 0xFFFFFFF0, 4, '='⟩]⟩
    ⟨0xE0000E00, 0xFFFFFFF0, 4, '='⟩ (by decide) (by decide)
  exact ⟨h.1, h.2 [5] "set {int}0xe0000e00 = 0x5\n" (by decide)⟩

/-- Lemma: `takeWhile` over an append keeps exactly the left part when every
left element satisfies the predicate and the first right element (if any)
does not. -/
theorem takeWhile_append_all {α} (p : α → Bool) (l1 l2 : List α)
    (h1 : ∀ c ∈ l1, p c = true)
    (h2 : ∀ c, l2.head? = some c → p c = false) :
    (l1 ++ l2).takeWhile p = l1 := by
  induction l1 with
  | nil =>
      cases l2 with
      | nil => rfl
      | cons c t => simp [List.takeWhile_cons, h2 c rfl]
  | cons a t ih =>
      simp [List.takeWhile_cons, h1 a (List.mem_cons_self a t)]
      exact ih (fun c hc => h1 c (List.mem_cons_of_mem a hc))

/-- C3 (amended): the Parser resolves an identifier DEST by linear scan
accepting the *first* register whose name *begins with* the identifier
(the comparison is case-sensitive but bounded by the identifier's length),
yielding that register's address and width; an identifier that is not a
prefix of any admitted register name is a fatal compile error. -/
theorem claim_C3_amended (regs : List REG_DEF) (ident rest : List Char)
    (hne : ident ≠ [])
    (hid : ∀ c ∈ ident, (c.isAlphanum || c == '_') = true)
    (hdig : (ident.head?.any (fun c => c.isDigit)) = false)
    (hrest : ∀ c, rest.head? = some c → (c.isAlphanum || c == '_') = false) :
    (regs.find? (fun r => r.name.take ident.length == ident) = none →
      parseDest regs (ident ++ rest) = none)
    ∧ ∀ rd, regs.find? (fun r => r.name.take ident.length == ident) = some rd →
        parseDest regs (ident ++ rest) = some (rd.address, rd.size, rest) := by
  have htw : (ident ++ rest).takeWhile (fun c => c.isAlphanum || c == '_') = ident :=
    takeWhile_append_all _ ident rest hid hrest
  have hc1 : ((ident ++ rest).head?.any (fun c => c.isDigit)) = false := by
    cases ident with
    | nil => exact absurd rfl hne
    | cons c t => simpa using hdig
  have hc2 : ((ident ++ rest).head? == some '$') = false := by
    cases ident with
    | nil => exact absurd rfl hne
    | cons c t =>
        have hcm := hid c (List.mem_cons_self c t)
        simp only [List.cons_append, List.head?_cons]
        by_cases hcc : c = '$'
        · rw [hcc] at hcm; simp at hcm
        · simp [hcc]
  unfold parseDest
  rw [if_neg (by rw [hc1]; simp), if_neg (by rw [hc2]; simp)]
  simp only [htw, List.take_left, List.drop_left]
  constructor
  · intro hf; rw [hf]
  · intro rd hf; rw [hf]

/-- Witness for C3 (amended): the identifier `SCB_D` followed by ` = 1`
resolves, for the `"STM32F407"` table, to `SCB_DHCSR`'s address and
width. -/
theorem claim_C3_amended_witness :
    parseDest (loadRegisters ("STM32F407".toList)) ("SCB_D".toList ++ " = 1".toList)
      = some ((0xE000EDF0 : Nat), (4 : Nat), (" = 1".toList)) := by
  have h := claim_C3_amended (loadRegisters ("STM32F407".toList))
    ("SCB_D".toList) (" = 1".toList) (by decide) (by decide) (by decide)
    (by intro c hc; cases hc; decide)
  exact h.2 ⟨"SCB_DHCSR".toList, 0xE000EDF0, 4, "*".toList⟩ (by decide)
